import Mathlib

/-!
# scbctl `scan` command: submission and log following

A shallow embedding of `scbctl/cmd/scans.go` (`ScanCmd.RunE` and
`followScanLogs`).  The cluster client, the flag set and the `kubectl`
subprocess are the environment: their answers are inputs of the model
(`World`), and everything the command does to them is recorded, in program
order, in a trace of `Event`s.

Go strings are modelled by Lean strings (sequences of characters); Go `error`
values by `Option String` (`none` is `nil`, `some s` an error whose `Error()`
text is `s`); `time.Duration` by a number of nanoseconds.
-/

namespace Scbctl

/-! ## Data model -/

/-- The `metav1.TypeMeta` fields set by the command. -/
structure TypeMeta where
  Kind : String
  APIVersion : String
  deriving DecidableEq, Repr

/-- The `metav1.ObjectMeta` fields set by the command. -/
structure ObjectMeta where
  Name : String
  Namespace : String
  deriving DecidableEq, Repr

/-- Modelled from the spec: the `v1.ScanSpec` type declaration
(operator/apis/execution/v1) is not among the sources; the two fields are the
ones of the submitted resource shape, `scanType` and `parameters`. -/
structure ScanSpec where
  ScanType : String
  Parameters : List String
  deriving DecidableEq, Repr

/-- Modelled from the spec: the `v1.Scan` type declaration
(operator/apis/execution/v1) is not among the sources; a typed record with kind
identifier, API group/version, metadata (name, namespace) and a spec. -/
structure Scan where
  TypeMeta : TypeMeta
  ObjectMeta : ObjectMeta
  Spec : ScanSpec
  deriving DecidableEq, Repr

/-- A `batchv1.Job` as far as `followScanLogs` reads it: its name. -/
structure Job where
  Name : String
  deriving DecidableEq, Repr

/-- What one `kubeclient.List(ctx, jobList, client.InNamespace(namespace))`
call gives: an error, or the items it stores in `jobList.Items`. -/
inductive ListResult where
  | err (e : String)
  | items (l : List Job)
  deriving DecidableEq, Repr

/-- What `cmd.Run()` on the `kubectl logs` subprocess comes to.  `cancelled`
is the case in which the context passed to `exec.CommandContext` is done while
the subprocess runs: the subprocess is killed and `Run` returns a non-nil
error. -/
inductive RunOutcome where
  | success
  | failure (cause : String)
  | cancelled (cause : String)
  deriving DecidableEq, Repr

/-- The Go `error` value that `cmd.Run()` returns to its caller. -/
def RunOutcome.err : RunOutcome → Option String
  | .success => none
  | .failure cause => some cause
  | .cancelled cause => some cause

/-- What `clientProvider.GetClient(kubeconfigArgs)` gives: an error, or a
client together with the active namespace. -/
inductive ClientResult where
  | err (e : String)
  | ok (ns : String)
  deriving DecidableEq, Repr

/-- What `cmd.Flags().GetBool("follow")` gives. -/
inductive FlagResult where
  | err (e : String)
  | ok (b : Bool)
  deriving DecidableEq, Repr

/-- The environment of one run of the command. `lists` holds the answers of
the successive `List` calls, one per call. -/
structure World where
  getClient : ClientResult
  create : Scan → Option String
  follow : FlagResult
  lists : List ListResult
  cmdRun : String → List String → RunOutcome

/-- One observable step of the command, with the environment's answer. -/
inductive Event where
  | print (s : String)
  | getClient (r : ClientResult)
  | create (scan : Scan) (r : Option String)
  | list (ns : String) (r : ListResult)
  | sleep (d : Nat)
  | run (name : String) (argv : List String) (r : RunOutcome)
  deriving DecidableEq, Repr

/-- How a call ends: it returns a Go `error`, or it is still polling when the
recorded answers of the environment are used up. -/
inductive Outcome where
  | pending
  | returned (err : Option String)
  deriving DecidableEq, Repr

/-- The constant `time.Second`, in nanoseconds. -/
def Second : Nat := 1000000000

/-! ## The code -/

/-- Go's `strings.HasPrefix(s, p)`: `len(s) >= len(p) && s[:len(p)] == p`.
Lengths and slices are taken on characters here and on bytes in Go; on strings
that are valid UTF-8 the two readings give the same answer. -/
def HasPrefix (s p : String) : Bool :=
  decide (p.length ≤ s.length) && (s.data.take p.length == p.data)

/-- The inner loop of `followScanLogs` (scans.go 131-137): `job` is the first
item, in listing order, whose name has the prefix `scan-<scanName>`, and stays
`nil` when there is none. -/
def selectJob (items : List Job) (scanName : String) : Option Job :=
  match items with
  | [] => none
  | j :: rest =>
    if HasPrefix j.Name ("scan-" ++ scanName) then some j
    else selectJob rest scanName

/-- The function `followScanLogs` (scans.go 107-163).  Each turn of the loop
takes the next answer of `List`; the trace and the outcome are returned. -/
def followScanLogs (cmdRun : String → List String → RunOutcome)
    (ns scanName : String) : List ListResult → List Event × Outcome
  | [] => ([], .pending)
  | .err e :: _ =>
    ([.list ns (.err e)], .returned (some ("error listing jobs: " ++ e)))
  | .items items :: rest =>
    if items.length = 0 then
      let r := followScanLogs cmdRun ns scanName rest
      (.list ns (.items items) :: .print "No jobs found, retrying...\n"
        :: .sleep (2 * Second) :: r.1, r.2)
    else
      match selectJob items scanName with
      | none =>
        let r := followScanLogs cmdRun ns scanName rest
        (.list ns (.items items) :: .print "Waiting for job to be created...\n"
          :: .sleep (2 * Second) :: r.1, r.2)
      | some job =>
        let jobName := job.Name
        let containerName := scanName
        let argv := ["logs", "job/" ++ jobName, containerName, "--follow", "-n", ns]
        let out := cmdRun "kubectl" argv
        ([.list ns (.items items),
          .print ("📡 Streaming logs for job '" ++ jobName ++ "' and container '"
            ++ containerName ++ "'\n"),
          .run "kubectl" argv out],
         match out.err with
         | some e => .returned (some ("error streaming logs: " ++ e))
         | none => .returned none)

/-- The function `ScanCmd.RunE` (scans.go 45-104). -/
def RunE (w : World) (args : List String) : List Event × Outcome :=
  match args with
  | [] | [_] =>
    ([], .returned (some "You must specify the name of the scan and the target"))
  | scanName :: target :: _ =>
    let t1 := [Event.print "🎬 Initializing Kubernetes client\n", .getClient w.getClient]
    match w.getClient with
    | .err e => (t1, .returned (some ("Error initializing Kubernetes client: " ++ e)))
    | .ok ns =>
      let scan : Scan :=
        { TypeMeta := { Kind := "Scan", APIVersion := "execution.securecodebox.io/v1" }
          ObjectMeta := { Name := scanName, Namespace := ns }
          Spec := { ScanType := scanName, Parameters := [target] } }
      let t2 := t1 ++
        [.print ("🆕 Creating a new scan with name '" ++ scanName ++ "' and target '"
            ++ target ++ "'\n"),
         .print "🔁 Launching the scan\n",
         .create scan (w.create scan)]
      match w.create scan with
      | some e => (t2, .returned (some ("Failed to create Scan: " ++ e)))
      | none =>
        let t3 := t2 ++ [.print ("🚀 Successfully created a new Scan '" ++ scanName ++ "'\n")]
        match w.follow with
        | .err e => (t3, .returned (some ("Error reading follow flag: " ++ e)))
        | .ok follow =>
          if follow then
            let r := followScanLogs w.cmdRun ns scanName w.lists
            let t4 := t3 ++ .print "📡 Following the scan logs\n" :: r.1
            match r.2 with
            | .pending => (t4, .pending)
            | .returned (some e) =>
              (t4, .returned (some ("Error following scan logs: " ++ e)))
            | .returned none => (t4 ++ [.print "Scanner Ready"], .returned none)
          else
            (t3 ++ [.print "Scanner Ready"], .returned none)

/-! ## Reading a trace -/

/-- The resources of the create calls of a trace, in order. -/
def createCalls : List Event → List Scan
  | [] => []
  | .create scan _ :: t => scan :: createCalls t
  | _ :: t => createCalls t

/-- The namespaces of the list calls of a trace, in order. -/
def listCalls : List Event → List String
  | [] => []
  | .list ns _ :: t => ns :: listCalls t
  | _ :: t => listCalls t

/-- The durations of the waits of a trace, in order. -/
def waits : List Event → List Nat
  | [] => []
  | .sleep d :: t => d :: waits t
  | _ :: t => waits t

/-- The subprocesses run (log streams opened) in a trace, in order. -/
def streams : List Event → List (String × List String)
  | [] => []
  | .run name argv _ :: t => (name, argv) :: streams t
  | _ :: t => streams t

/-! ## Comparing two runs -/

/-- A listing answered without error in which no job name has the prefix
`scan-<N>`; the empty listing is one. -/
def noMatch (N : String) : ListResult → Bool
  | .err _ => false
  | .items l => l.all (fun x => !HasPrefix x.Name ("scan-" ++ N))

/-- Two answers of `List` are exchangeable when they are the same answer, or
when both are listings, empty or not, without a matching job. -/
def exchangeable (N : String) (a b : ListResult) : Bool :=
  a == b || (noMatch N a && noMatch N b)

/-- The two progress notices of the polling loop. -/
def isNotice : Event → Bool
  | .print s => s == "No jobs found, retrying...\n" || s == "Waiting for job to be created...\n"
  | _ => false

/-- Two events are the same for control when they are equal, or both a
progress notice, or both a list call in the same namespace answered by a
listing without a matching job. -/
def sameControl (N : String) (e f : Event) : Bool :=
  e == f || (isNotice e && isNotice f) ||
    match e, f with
    | .list ns a, .list ns2 b => ns == ns2 && noMatch N a && noMatch N b
    | _, _ => false

/-! ## Sample environments -/

/-- An environment with follow enabled in which the first listing is empty and
the second holds the job `scan-nmap-1a2b`; everything succeeds. -/
def followWorld : World where
  getClient := .ok "default"
  create := fun _ => none
  follow := .ok true
  lists := [.items [], .items [⟨"scan-nmap-1a2b"⟩]]
  cmdRun := fun _ _ => .success

/-- An environment with follow disabled; everything succeeds. -/
def quietWorld : World where
  getClient := .ok "default"
  create := fun _ => none
  follow := .ok false
  lists := []
  cmdRun := fun _ _ => .success

/-- An environment with follow enabled in which the create call is rejected. -/
def rejectWorld : World where
  getClient := .ok "default"
  create := fun _ => some "scans.execution.securecodebox.io \"nmap\" already exists"
  follow := .ok true
  lists := [.items [⟨"scan-nmap-1a2b"⟩]]
  cmdRun := fun _ _ => .success

/-! ## Lemmas on prefixes and selection -/

theorem HasPrefix_iff_data (s p : String) :
    HasPrefix s p = true ↔ p.data <+: s.data := by
  unfold HasPrefix
  rw [List.prefix_iff_eq_take]
  simp only [String.length, Bool.and_eq_true, decide_eq_true_eq, beq_iff_eq]
  constructor
  · rintro ⟨_, h⟩
    exact h.symm
  · intro h
    refine ⟨?_, h.symm⟩
    have := congrArg List.length h
    rw [List.length_take] at this
    omega

theorem HasPrefix_iff_append (s p : String) :
    HasPrefix s p = true ↔ ∃ t : String, s = p ++ t := by
  rw [HasPrefix_iff_data]
  constructor
  · rintro ⟨t, ht⟩
    refine ⟨⟨t⟩, ?_⟩
    apply String.ext
    simp [ht]
  · rintro ⟨t, rfl⟩
    exact ⟨t.data, by simp⟩

theorem selectJob_eq_none_iff (items : List Job) (N : String) :
    selectJob items N = none ↔ ∀ x ∈ items, HasPrefix x.Name ("scan-" ++ N) = false := by
  induction items with
  | nil => simp [selectJob]
  | cons j rest ih =>
    unfold selectJob
    by_cases hj : HasPrefix j.Name ("scan-" ++ N) = true
    · simp [hj]
    · simp [hj, ih]

theorem selectJob_eq_some_iff (items : List Job) (N : String) (j : Job) :
    selectJob items N = some j ↔
      ∃ before after, items = before ++ j :: after ∧
        HasPrefix j.Name ("scan-" ++ N) = true ∧
        ∀ x ∈ before, HasPrefix x.Name ("scan-" ++ N) = false := by
  induction items with
  | nil => simp [selectJob]
  | cons i rest ih =>
    unfold selectJob
    by_cases hi : HasPrefix i.Name ("scan-" ++ N) = true
    · simp only [hi, if_true, Option.some.injEq]
      constructor
      · rintro rfl
        exact ⟨[], rest, rfl, hi, by simp⟩
      · rintro ⟨before, after, heq, _, hb⟩
        cases before with
        | nil =>
          simp only [List.nil_append, List.cons.injEq] at heq
          exact heq.1
        | cons b before =>
          simp only [List.cons_append, List.cons.injEq] at heq
          have := hb b (by simp)
          rw [← heq.1, hi] at this
          cases this
    · rw [if_neg hi, ih]
      constructor
      · rintro ⟨before, after, heq, hj, hb⟩
        refine ⟨i :: before, after, by simp [heq], hj, ?_⟩
        intro x hx
        rcases List.mem_cons.1 hx with rfl | hx
        · simpa using hi
        · exact hb x hx
      · rintro ⟨before, after, heq, hj, hb⟩
        cases before with
        | nil =>
          simp only [List.nil_append, List.cons.injEq] at heq
          rw [heq.1] at hi
          exact absurd hj hi
        | cons b before =>
          simp only [List.cons_append, List.cons.injEq] at heq
          exact ⟨before, after, heq.2, hj, fun x hx => hb x (by simp [hx])⟩

/-! ## One turn of the polling loop -/

theorem followScanLogs_empty (cmdRun : String → List String → RunOutcome)
    (ns N : String) (rest : List ListResult) :
    followScanLogs cmdRun ns N (.items [] :: rest) =
      (.list ns (.items []) :: .print "No jobs found, retrying...\n"
        :: .sleep (2 * Second) :: (followScanLogs cmdRun ns N rest).1,
       (followScanLogs cmdRun ns N rest).2) := by
  simp [followScanLogs]

theorem followScanLogs_noMatch (cmdRun : String → List String → RunOutcome)
    (ns N : String) (items : List Job) (rest : List ListResult)
    (hne : items ≠ []) (hsel : selectJob items N = none) :
    followScanLogs cmdRun ns N (.items items :: rest) =
      (.list ns (.items items) :: .print "Waiting for job to be created...\n"
        :: .sleep (2 * Second) :: (followScanLogs cmdRun ns N rest).1,
       (followScanLogs cmdRun ns N rest).2) := by
  simp [followScanLogs, hne, hsel]

theorem followScanLogs_match (cmdRun : String → List String → RunOutcome)
    (ns N : String) (items : List Job) (rest : List ListResult) (j : Job)
    (hsel : selectJob items N = some j) :
    followScanLogs cmdRun ns N (.items items :: rest) =
      ([.list ns (.items items),
        .print ("📡 Streaming logs for job '" ++ j.Name ++ "' and container '" ++ N ++ "'\n"),
        .run "kubectl" ["logs", "job/" ++ j.Name, N, "--follow", "-n", ns]
          (cmdRun "kubectl" ["logs", "job/" ++ j.Name, N, "--follow", "-n", ns])],
       match (cmdRun "kubectl" ["logs", "job/" ++ j.Name, N, "--follow", "-n", ns]).err with
       | some e => .returned (some ("error streaming logs: " ++ e))
       | none => .returned none) := by
  have hne : items ≠ [] := by
    rintro rfl
    simp [selectJob] at hsel
  simp [followScanLogs, hne, hsel]

theorem followScanLogs_retry (cmdRun : String → List String → RunOutcome)
    (ns N : String) (items : List Job) (rest : List ListResult)
    (hsel : selectJob items N = none) :
    followScanLogs cmdRun ns N (.items items :: rest) =
      (.list ns (.items items)
        :: .print (if items.length = 0 then "No jobs found, retrying...\n"
            else "Waiting for job to be created...\n")
        :: .sleep (2 * Second) :: (followScanLogs cmdRun ns N rest).1,
       (followScanLogs cmdRun ns N rest).2) := by
  by_cases h : items.length = 0
  · simp [followScanLogs, h]
  · simp [followScanLogs, h, hsel]

/-! ## Projections of a trace -/

@[simp] theorem createCalls_append (a b : List Event) :
    createCalls (a ++ b) = createCalls a ++ createCalls b := by
  induction a with
  | nil => rfl
  | cons e a ih => cases e <;> simp [createCalls, ih]

@[simp] theorem listCalls_append (a b : List Event) :
    listCalls (a ++ b) = listCalls a ++ listCalls b := by
  induction a with
  | nil => rfl
  | cons e a ih => cases e <;> simp [listCalls, ih]

@[simp] theorem waits_append (a b : List Event) :
    waits (a ++ b) = waits a ++ waits b := by
  induction a with
  | nil => rfl
  | cons e a ih => cases e <;> simp [waits, ih]

@[simp] theorem streams_append (a b : List Event) :
    streams (a ++ b) = streams a ++ streams b := by
  induction a with
  | nil => rfl
  | cons e a ih => cases e <;> simp [streams, ih]

/-! ## Splitting a trace at an event -/

theorem split_left {α : Type} {A B pre post : List α} {e : α}
    (h : A ++ B = pre ++ e :: post) (he : e ∉ A) :
    ∃ pre2, pre = A ++ pre2 ∧ B = pre2 ++ e :: post := by
  rcases List.append_eq_append_iff.1 h with ⟨a, ha, hb⟩ | ⟨c, hc, hd⟩
  · exact ⟨a, ha, hb⟩
  · cases c with
    | nil =>
      refine ⟨[], by simpa using hc.symm, by simpa using hd.symm⟩
    | cons x c =>
      simp only [List.cons_append, List.cons.injEq] at hd
      exact absurd (by rw [hc, ← hd.1]; simp) he

theorem split_right {α : Type} {B T pre post : List α} {e : α}
    (h : B ++ T = pre ++ e :: post) (he : e ∉ T) :
    ∃ post2, B = pre ++ e :: post2 ∧ post = post2 ++ T := by
  rcases List.append_eq_append_iff.1 h with ⟨a, _, hb⟩ | ⟨c, hc, hd⟩
  · exact absurd (by rw [hb]; simp) he
  · cases c with
    | nil =>
      simp only [List.nil_append] at hd
      exact absurd (by rw [← hd]; simp) he
    | cons x c =>
      simp only [List.cons_append, List.cons.injEq] at hd
      refine ⟨c, ?_, hd.2⟩
      rw [hc, hd.1]

/-! ## The place of the stream in a trace of `followScanLogs` -/

/-- Where a trace of `followScanLogs` holds a `run` event, that event is the
last one, it is `kubectl logs job/<selected job> <scanName> --follow -n <ns>`
for the job selected from the listing just before it, and the same script
under another subprocess behaviour `cmdRun2` takes the same path. -/
theorem followScanLogs_run_inv (cmdRun cmdRun2 : String → List String → RunOutcome)
    (ns N : String) (script : List ListResult) :
    ∀ (pre post : List Event) (name : String) (argv : List String) (out : RunOutcome),
      (followScanLogs cmdRun ns N script).1 = pre ++ Event.run name argv out :: post →
      post = [] ∧ name = "kubectl" ∧ out = cmdRun name argv ∧
      (∃ items j pre2, selectJob items N = some j ∧
        pre = pre2 ++ [.list ns (.items items),
          .print ("📡 Streaming logs for job '" ++ j.Name ++ "' and container '"
            ++ N ++ "'\n")] ∧
        argv = ["logs", "job/" ++ j.Name, N, "--follow", "-n", ns]) ∧
      followScanLogs cmdRun2 ns N script =
        (pre ++ [.run name argv (cmdRun2 name argv)],
         match (cmdRun2 name argv).err with
         | some e => .returned (some ("error streaming logs: " ++ e))
         | none => .returned none) := by
  induction script with
  | nil =>
    intro pre post name argv out h
    simp [followScanLogs] at h
  | cons r rest ih =>
    intro pre post name argv out h
    cases r with
    | err e =>
      rcases pre with _ | ⟨x, pre⟩ <;> simp [followScanLogs] at h
    | items items =>
      cases hsel : selectJob items N with
      | none =>
        rw [followScanLogs_retry _ _ _ _ _ hsel] at h
        rcases pre with _ | ⟨x, _ | ⟨y, _ | ⟨z, pre⟩⟩⟩
        · simp at h
        · simp at h
        · simp at h
        · simp only [List.cons_append, List.cons.injEq] at h
          obtain ⟨hx, hy, hz, ht⟩ := h
          obtain ⟨hpost, hname, hout, ⟨its, j, pre2, hj, hpre, hargv⟩, h2⟩ :=
            ih pre post name argv out ht
          refine ⟨hpost, hname, hout, ⟨its, j, x :: y :: z :: pre2, hj, ?_, hargv⟩, ?_⟩
          · simp [hpre]
          · rw [followScanLogs_retry _ _ _ _ _ hsel, h2, ← hx, ← hy, ← hz]
            rfl
      | some j =>
        rw [followScanLogs_match _ _ _ _ _ _ hsel] at h
        rcases pre with _ | ⟨x, _ | ⟨y, _ | ⟨z, pre⟩⟩⟩
        · simp at h
        · simp at h
        · simp only [List.cons_append, List.nil_append, List.cons.injEq,
            Event.run.injEq] at h
          obtain ⟨hx, hy, ⟨hname, hargv, hout⟩, hpost⟩ := h
          subst hname hargv
          refine ⟨hpost.symm, rfl, hout.symm, ⟨items, j, [], hsel, ?_, rfl⟩, ?_⟩
          · simp [← hx, ← hy]
          · rw [followScanLogs_match _ _ _ _ _ _ hsel, ← hx, ← hy]
            rfl
        · simp at h

theorem createCalls_followScanLogs (cmdRun : String → List String → RunOutcome)
    (ns N : String) (script : List ListResult) :
    createCalls (followScanLogs cmdRun ns N script).1 = [] := by
  induction script with
  | nil => rfl
  | cons r rest ih =>
    cases r with
    | err e => rfl
    | items items =>
      cases hsel : selectJob items N with
      | none =>
        rw [followScanLogs_retry _ _ _ _ _ hsel]
        simpa [createCalls] using ih
      | some j =>
        rw [followScanLogs_match _ _ _ _ _ _ hsel]
        rfl

/-! ## Selection of the job -/

/-- C2: for a non-empty listing, the job selected by `followScanLogs` is the
first one in listing order whose name starts with `scan-<N>`: its name is
`scan-<N>` followed by a suffix, nothing before it in the listing has the
prefix, the first such item is the one the stream is opened against, and when
no item has the prefix nothing is selected and the turn of the loop only lists,
prints and waits.  For `scan-foo-abc, scan-foobar-xyz, other` and `foo` the
selection is `scan-foo-abc`; a job whose name lacks the prefix is never
selected. -/
theorem followScanLogs_selects_first_match (N : String) (items : List Job)
    (hne : items ≠ []) :
    (∀ j, selectJob items N = some j →
      (∃ suffix : String, j.Name = "scan-" ++ N ++ suffix) ∧
      ∃ before after, items = before ++ j :: after ∧
        ∀ x ∈ before, HasPrefix x.Name ("scan-" ++ N) = false) ∧
    (∀ before j after, items = before ++ j :: after →
      HasPrefix j.Name ("scan-" ++ N) = true →
      (∀ x ∈ before, HasPrefix x.Name ("scan-" ++ N) = false) →
      selectJob items N = some j ∧
      ∀ cmdRun ns rest,
        streams (followScanLogs cmdRun ns N (.items items :: rest)).1 =
          [("kubectl", ["logs", "job/" ++ j.Name, N, "--follow", "-n", ns])]) ∧
    ((∀ x ∈ items, HasPrefix x.Name ("scan-" ++ N) = false) →
      selectJob items N = none ∧
      ∀ cmdRun ns rest,
        followScanLogs cmdRun ns N (.items items :: rest) =
          (.list ns (.items items) :: .print "Waiting for job to be created...\n"
            :: .sleep (2 * Second) :: (followScanLogs cmdRun ns N rest).1,
           (followScanLogs cmdRun ns N rest).2)) ∧
    (∀ j, HasPrefix j.Name ("scan-" ++ N) = false → selectJob items N ≠ some j) ∧
    selectJob [⟨"scan-foo-abc"⟩, ⟨"scan-foobar-xyz"⟩, ⟨"other"⟩] "foo"
      = some ⟨"scan-foo-abc"⟩ ∧
    selectJob [⟨"other"⟩, ⟨"my-foo-scan"⟩, ⟨"foo-scan-foo"⟩] "foo" = none := by
  refine ⟨?_, ?_, ?_, ?_, by decide, by decide⟩
  · intro j hj
    obtain ⟨before, after, heq, hp, hb⟩ := (selectJob_eq_some_iff items N j).1 hj
    exact ⟨(HasPrefix_iff_append _ _).1 hp, before, after, heq, hb⟩
  · intro before j after heq hp hb
    have hsel : selectJob items N = some j :=
      (selectJob_eq_some_iff items N j).2 ⟨before, after, heq, hp, hb⟩
    refine ⟨hsel, ?_⟩
    intro cmdRun ns rest
    rw [followScanLogs_match _ _ _ _ _ _ hsel]
    rfl
  · intro hall
    have hsel : selectJob items N = none := (selectJob_eq_none_iff items N).2 hall
    refine ⟨hsel, ?_⟩
    intro cmdRun ns rest
    exact followScanLogs_noMatch _ _ _ _ _ hne hsel
  · intro j hj hsel
    obtain ⟨_, _, _, hp, _⟩ := (selectJob_eq_some_iff items N j).1 hsel
    rw [hp] at hj
    cases hj

theorem followScanLogs_selects_first_match_witness :
    ([⟨"scan-foo-abc"⟩, ⟨"scan-foobar-xyz"⟩, ⟨"other"⟩] : List Job) ≠ [] ∧
    HasPrefix "other" ("scan-" ++ "foo") = false ∧
    selectJob [⟨"scan-foo-abc"⟩, ⟨"scan-foobar-xyz"⟩, ⟨"other"⟩] "foo" ≠ some ⟨"other"⟩ :=
  ⟨by decide, by decide,
   (followScanLogs_selects_first_match "foo"
      [⟨"scan-foo-abc"⟩, ⟨"scan-foobar-xyz"⟩, ⟨"other"⟩] (by decide)).2.2.2.1
      ⟨"other"⟩ (by decide)⟩

/-- C10: the prefix rule does not separate scans whose names extend one
another.  For `foo` and the listing `scan-foobar-xyz, scan-foo-abc` the job
selected is `scan-foobar-xyz`, and the stream is opened against it with
container `foo`; for every `N` and every `M` that extends `N` properly, a job
named `scan-<M><suffix>` has the prefix looked for under `N`, and is selected
when it comes first. -/
theorem selectJob_prefix_collision :
    selectJob [⟨"scan-foobar-xyz"⟩, ⟨"scan-foo-abc"⟩] "foo" = some ⟨"scan-foobar-xyz"⟩ ∧
    (∀ cmdRun ns rest,
      streams (followScanLogs cmdRun ns "foo"
          (.items [⟨"scan-foobar-xyz"⟩, ⟨"scan-foo-abc"⟩] :: rest)).1 =
        [("kubectl", ["logs", "job/scan-foobar-xyz", "foo", "--follow", "-n", ns])]) ∧
    (∀ N M suffix : String, N.data <+: M.data → N ≠ M →
      HasPrefix ("scan-" ++ M ++ suffix) ("scan-" ++ N) = true ∧
      ∀ others, selectJob (⟨"scan-" ++ M ++ suffix⟩ :: others) N
        = some ⟨"scan-" ++ M ++ suffix⟩) := by
  refine ⟨by decide, ?_, ?_⟩
  · intro cmdRun ns rest
    rw [followScanLogs_match _ _ _ _ _ ⟨"scan-foobar-xyz"⟩ (by decide)]
    rfl
  · intro N M suffix hpre _
    have hp : HasPrefix ("scan-" ++ M ++ suffix) ("scan-" ++ N) = true := by
      rw [HasPrefix_iff_data]
      obtain ⟨t, ht⟩ := hpre
      exact ⟨t ++ suffix.data, by simp [← ht]⟩
    refine ⟨hp, ?_⟩
    intro others
    simp [selectJob, hp]

/-! ## Polling -/

/-- C3: when the first `k` listings are empty and the next one holds a job
whose name has the prefix `scan-<N>`, `followScanLogs` makes `k` turns of
list, notice and wait of `2 * time.Second`, then lists once more and only then
opens the stream, once, and returns: `k + 1` list calls, `k` waits of two
seconds each, one stream. -/
theorem followScanLogs_empty_then_match (cmdRun : String → List String → RunOutcome)
    (ns N : String) (k : Nat) (items : List Job) (rest : List ListResult)
    (hmatch : ∃ x ∈ items, HasPrefix x.Name ("scan-" ++ N) = true) :
    ∃ j, selectJob items N = some j ∧
      (followScanLogs cmdRun ns N
          (List.replicate k (.items []) ++ .items items :: rest)).1 =
        (List.replicate k
            [Event.list ns (.items []), .print "No jobs found, retrying...\n",
              .sleep (2 * Second)]).flatten ++
          [.list ns (.items items),
           .print ("📡 Streaming logs for job '" ++ j.Name ++ "' and container '"
             ++ N ++ "'\n"),
           .run "kubectl" ["logs", "job/" ++ j.Name, N, "--follow", "-n", ns]
             (cmdRun "kubectl" ["logs", "job/" ++ j.Name, N, "--follow", "-n", ns])] ∧
      (listCalls (followScanLogs cmdRun ns N
          (List.replicate k (.items []) ++ .items items :: rest)).1).length = k + 1 ∧
      waits (followScanLogs cmdRun ns N
          (List.replicate k (.items []) ++ .items items :: rest)).1
        = List.replicate k 2000000000 ∧
      streams (followScanLogs cmdRun ns N
          (List.replicate k (.items []) ++ .items items :: rest)).1
        = [("kubectl", ["logs", "job/" ++ j.Name, N, "--follow", "-n", ns])] ∧
      ∃ err, (followScanLogs cmdRun ns N
          (List.replicate k (.items []) ++ .items items :: rest)).2 = .returned err := by
  have hsome : ∃ j, selectJob items N = some j := by
    cases hsel : selectJob items N with
    | some j => exact ⟨j, rfl⟩
    | none =>
      obtain ⟨x, hx, hp⟩ := hmatch
      rw [(selectJob_eq_none_iff items N).1 hsel x hx] at hp
      cases hp
  obtain ⟨j, hj⟩ := hsome
  refine ⟨j, hj, ?_⟩
  induction k with
  | zero =>
    simp only [List.replicate_zero, List.nil_append, List.flatten_nil]
    rw [followScanLogs_match _ _ _ _ _ _ hj]
    refine ⟨rfl, rfl, rfl, rfl, ?_⟩
    cases (cmdRun "kubectl" ["logs", "job/" ++ j.Name, N, "--follow", "-n", ns]).err with
    | none => exact ⟨_, rfl⟩
    | some e => exact ⟨_, rfl⟩
  | succ k ih =>
    obtain ⟨h1, h2, h3, h4, h5⟩ := ih
    simp only [List.replicate_succ, List.cons_append, List.flatten_cons]
    rw [followScanLogs_empty]
    refine ⟨?_, ?_, ?_, ?_, h5⟩
    · simp only [h1, List.cons_append, List.nil_append]
    · simp only [listCalls, List.length_cons, h2]
    · simp only [waits, h3, Second]
    · simp only [streams, h4]

theorem followScanLogs_empty_then_match_witness :
    (∃ x ∈ ([⟨"scan-nmap-1a2b"⟩] : List Job), HasPrefix x.Name ("scan-" ++ "nmap") = true) ∧
    ∃ j, selectJob [⟨"scan-nmap-1a2b"⟩] "nmap" = some j ∧
      (followScanLogs (fun _ _ => .success) "default" "nmap"
          (List.replicate 1 (.items []) ++ .items [⟨"scan-nmap-1a2b"⟩] :: [])).1 =
        (List.replicate 1
            [Event.list "default" (.items []), .print "No jobs found, retrying...\n",
              .sleep (2 * Second)]).flatten ++
          [.list "default" (.items [⟨"scan-nmap-1a2b"⟩]),
           .print ("📡 Streaming logs for job '" ++ j.Name ++ "' and container '"
             ++ "nmap" ++ "'\n"),
           .run "kubectl" ["logs", "job/" ++ j.Name, "nmap", "--follow", "-n", "default"]
             .success] :=
  ⟨⟨⟨"scan-nmap-1a2b"⟩, by simp, by decide⟩,
   (followScanLogs_empty_then_match (fun _ _ => .success) "default" "nmap" 1
      [⟨"scan-nmap-1a2b"⟩] [] ⟨⟨"scan-nmap-1a2b"⟩, by simp, by decide⟩).imp
    (fun _ h => ⟨h.1, h.2.1⟩)⟩

/-! ## A listing without a match and the empty listing -/

theorem noMatch_iff (N : String) (a : ListResult) :
    noMatch N a = true ↔ ∃ l, a = .items l ∧ selectJob l N = none := by
  cases a with
  | err e => simp [noMatch]
  | items l => simp [noMatch, selectJob_eq_none_iff]

theorem sameControl_refl (N : String) (e : Event) : sameControl N e e = true := by
  simp [sameControl]

theorem forall₂_sameControl_refl (N : String) (t : List Event) :
    List.Forall₂ (fun e f => sameControl N e f = true) t t := by
  induction t with
  | nil => exact List.Forall₂.nil
  | cons e t ih => exact List.Forall₂.cons (sameControl_refl N e) ih

theorem sameControl_projections (N : String) (e f : Event) (t u : List Event)
    (h : sameControl N e f = true)
    (ih : listCalls t = listCalls u ∧ waits t = waits u ∧ streams t = streams u) :
    listCalls (e :: t) = listCalls (f :: u) ∧ waits (e :: t) = waits (f :: u) ∧
      streams (e :: t) = streams (f :: u) := by
  obtain ⟨h1, h2, h3⟩ := ih
  cases e <;> cases f <;>
    simp_all [sameControl, isNotice, listCalls, waits, streams]
  rcases h with h | h
  · exact h.1
  · exact h.1.1

/-- Exchanging listings without a match (empty or not) for one another in a
script of `List` answers leaves the result of `followScanLogs` unchanged, and
the traces agree event by event up to the listing answered and the notice
printed. -/
theorem followScanLogs_exchange (cmdRun : String → List String → RunOutcome)
    (ns N : String) (s1 s2 : List ListResult)
    (h : List.Forall₂ (fun a b => exchangeable N a b = true) s1 s2) :
    (followScanLogs cmdRun ns N s1).2 = (followScanLogs cmdRun ns N s2).2 ∧
    List.Forall₂ (fun e f => sameControl N e f = true)
      (followScanLogs cmdRun ns N s1).1 (followScanLogs cmdRun ns N s2).1 ∧
    listCalls (followScanLogs cmdRun ns N s1).1
      = listCalls (followScanLogs cmdRun ns N s2).1 ∧
    waits (followScanLogs cmdRun ns N s1).1 = waits (followScanLogs cmdRun ns N s2).1 ∧
    streams (followScanLogs cmdRun ns N s1).1
      = streams (followScanLogs cmdRun ns N s2).1 := by
  induction h with
  | nil => exact ⟨rfl, List.Forall₂.nil, rfl, rfl, rfl⟩
  | @cons a b r1 r2 hab _ ih =>
    obtain ⟨ih1, ih2, ih3⟩ := ih
    have key : ∀ la lb, selectJob la N = none → selectJob lb N = none →
        (followScanLogs cmdRun ns N (.items la :: r1)).2
          = (followScanLogs cmdRun ns N (.items lb :: r2)).2 ∧
        List.Forall₂ (fun e f => sameControl N e f = true)
          (followScanLogs cmdRun ns N (.items la :: r1)).1
          (followScanLogs cmdRun ns N (.items lb :: r2)).1 ∧
        listCalls (followScanLogs cmdRun ns N (.items la :: r1)).1
          = listCalls (followScanLogs cmdRun ns N (.items lb :: r2)).1 ∧
        waits (followScanLogs cmdRun ns N (.items la :: r1)).1
          = waits (followScanLogs cmdRun ns N (.items lb :: r2)).1 ∧
        streams (followScanLogs cmdRun ns N (.items la :: r1)).1
          = streams (followScanLogs cmdRun ns N (.items lb :: r2)).1 := by
      intro la lb hla hlb
      rw [followScanLogs_retry _ _ _ _ _ hla, followScanLogs_retry _ _ _ _ _ hlb]
      have e1 : sameControl N (.list ns (.items la)) (.list ns (.items lb)) = true := by
        have h1 := (noMatch_iff N (.items la)).2 ⟨la, rfl, hla⟩
        have h2 := (noMatch_iff N (.items lb)).2 ⟨lb, rfl, hlb⟩
        simp [sameControl, h1, h2]
      have e2 : sameControl N
          (.print (if la.length = 0 then "No jobs found, retrying...\n"
            else "Waiting for job to be created...\n"))
          (.print (if lb.length = 0 then "No jobs found, retrying...\n"
            else "Waiting for job to be created...\n")) = true := by
        by_cases h1 : la.length = 0 <;> by_cases h2 : lb.length = 0 <;>
          simp [sameControl, isNotice, h1, h2]
      have e3 := sameControl_refl N (.sleep (2 * Second))
      refine ⟨ih1, List.Forall₂.cons e1 (List.Forall₂.cons e2 (List.Forall₂.cons e3 ih2)), ?_⟩
      exact sameControl_projections N _ _ _ _ e1
        (sameControl_projections N _ _ _ _ e2
          (sameControl_projections N _ _ _ _ e3 ih3))
    simp only [exchangeable, Bool.or_eq_true, beq_iff_eq, Bool.and_eq_true] at hab
    rcases hab with rfl | ⟨ha, hb⟩
    · cases a with
      | err e =>
        exact ⟨rfl, forall₂_sameControl_refl N _, rfl, rfl, rfl⟩
      | items l =>
        cases hsel : selectJob l N with
        | none => exact key l l hsel hsel
        | some j =>
          rw [followScanLogs_match _ _ _ _ _ _ hsel, followScanLogs_match _ _ _ _ _ _ hsel]
          exact ⟨rfl, forall₂_sameControl_refl N _, rfl, rfl, rfl⟩
    · obtain ⟨la, rfl, hla⟩ := (noMatch_iff N a).1 ha
      obtain ⟨lb, rfl, hlb⟩ := (noMatch_iff N b).1 hb
      exact key la lb hla hlb

/-- C4: a listing that holds only jobs without the prefix behaves as the
empty listing does: retry, not failure.  On a listing answered without error
in which no job has the prefix `scan-<N>`, empty or not, the turn of the loop
is the list call, one progress notice and a wait of `2 * time.Second`, after
which `followScanLogs` goes on with the next answer of `List`: the listing
itself yields no error and no stream, and the result is the one of the rest of
the run.  The two cases differ in the notice only.  Hence when two scripts of
answers agree position by position except that listings without a match may
stand for one another, the result returned is the same and the traces agree
event by event up to the listing answered and the notice printed: same list
calls, same waits, same stream.  For the listing `other` followed by
`scan-nmap-1a2b` the run waits once, streams and returns nil. -/
theorem followScanLogs_noMatch_like_empty (cmdRun : String → List String → RunOutcome)
    (ns N : String) (s1 s2 : List ListResult)
    (h : List.Forall₂ (fun a b => exchangeable N a b = true) s1 s2) :
    (followScanLogs cmdRun ns N s1).2 = (followScanLogs cmdRun ns N s2).2 ∧
    List.Forall₂ (fun e f => sameControl N e f = true)
      (followScanLogs cmdRun ns N s1).1 (followScanLogs cmdRun ns N s2).1 ∧
    listCalls (followScanLogs cmdRun ns N s1).1
      = listCalls (followScanLogs cmdRun ns N s2).1 ∧
    waits (followScanLogs cmdRun ns N s1).1 = waits (followScanLogs cmdRun ns N s2).1 ∧
    streams (followScanLogs cmdRun ns N s1).1
      = streams (followScanLogs cmdRun ns N s2).1 ∧
    (∀ rest,
      followScanLogs cmdRun ns N (.items [] :: rest) =
        (.list ns (.items []) :: .print "No jobs found, retrying...\n"
          :: .sleep 2000000000 :: (followScanLogs cmdRun ns N rest).1,
         (followScanLogs cmdRun ns N rest).2)) ∧
    (∀ items rest, items ≠ [] →
      (∀ x ∈ items, HasPrefix x.Name ("scan-" ++ N) = false) →
      followScanLogs cmdRun ns N (.items items :: rest) =
        (.list ns (.items items) :: .print "Waiting for job to be created...\n"
          :: .sleep 2000000000 :: (followScanLogs cmdRun ns N rest).1,
         (followScanLogs cmdRun ns N rest).2)) ∧
    (∀ items rest, (∀ x ∈ items, HasPrefix x.Name ("scan-" ++ N) = false) →
      (followScanLogs cmdRun ns N (.items items :: rest)).2
        = (followScanLogs cmdRun ns N rest).2 ∧
      listCalls (followScanLogs cmdRun ns N (.items items :: rest)).1
        = ns :: listCalls (followScanLogs cmdRun ns N rest).1 ∧
      waits (followScanLogs cmdRun ns N (.items items :: rest)).1
        = 2000000000 :: waits (followScanLogs cmdRun ns N rest).1 ∧
      streams (followScanLogs cmdRun ns N (.items items :: rest)).1
        = streams (followScanLogs cmdRun ns N rest).1) ∧
    followScanLogs (fun _ _ => .success) "default" "nmap"
        [.items [⟨"other"⟩], .items [⟨"scan-nmap-1a2b"⟩]] =
      ([.list "default" (.items [⟨"other"⟩]),
        .print "Waiting for job to be created...\n",
        .sleep 2000000000,
        .list "default" (.items [⟨"scan-nmap-1a2b"⟩]),
        .print "📡 Streaming logs for job 'scan-nmap-1a2b' and container 'nmap'\n",
        .run "kubectl" ["logs", "job/scan-nmap-1a2b", "nmap", "--follow", "-n", "default"]
          .success],
       .returned none) := by
  obtain ⟨h1, h2, h3, h4, h5⟩ := followScanLogs_exchange cmdRun ns N s1 s2 h
  refine ⟨h1, h2, h3, h4, h5, ?_, ?_, ?_, by decide⟩
  · intro rest
    exact followScanLogs_empty cmdRun ns N rest
  · intro items rest hne hall
    exact followScanLogs_noMatch cmdRun ns N items rest hne
      ((selectJob_eq_none_iff items N).2 hall)
  · intro items rest hall
    rw [followScanLogs_retry cmdRun ns N items rest ((selectJob_eq_none_iff items N).2 hall)]
    exact ⟨rfl, rfl, rfl, rfl⟩

theorem followScanLogs_noMatch_like_empty_witness :
    List.Forall₂ (fun a b => exchangeable "nmap" a b = true)
      [.items [⟨"other"⟩], .items [⟨"scan-nmap-1a2b"⟩]]
      [.items [], .items [⟨"scan-nmap-1a2b"⟩]] ∧
    (followScanLogs (fun _ _ => .success) "default" "nmap"
        [.items [⟨"other"⟩], .items [⟨"scan-nmap-1a2b"⟩]]).2 =
      (followScanLogs (fun _ _ => .success) "default" "nmap"
        [.items [], .items [⟨"scan-nmap-1a2b"⟩]]).2 ∧
    followScanLogs (fun _ _ => .success) "default" "nmap"
        [.items [⟨"other"⟩], .items [⟨"scan-nmap-1a2b"⟩]] =
      ([.list "default" (.items [⟨"other"⟩]),
        .print "Waiting for job to be created...\n",
        .sleep 2000000000,
        .list "default" (.items [⟨"scan-nmap-1a2b"⟩]),
        .print "📡 Streaming logs for job 'scan-nmap-1a2b' and container 'nmap'\n",
        .run "kubectl" ["logs", "job/scan-nmap-1a2b", "nmap", "--follow", "-n", "default"]
          .success],
       .returned none) :=
  have h := followScanLogs_noMatch_like_empty (fun _ _ => .success) "default" "nmap"
    [.items [⟨"other"⟩], .items [⟨"scan-nmap-1a2b"⟩]]
    [.items [], .items [⟨"scan-nmap-1a2b"⟩]]
    (List.Forall₂.cons (by decide) (List.Forall₂.cons (by decide) List.Forall₂.nil))
  ⟨List.Forall₂.cons (by decide) (List.Forall₂.cons (by decide) List.Forall₂.nil),
   h.1, h.2.2.2.2.2.2.2.2⟩

/-! ## The stream -/

theorem streams_followScanLogs_length (cmdRun : String → List String → RunOutcome)
    (ns N : String) (script : List ListResult) :
    (streams (followScanLogs cmdRun ns N script).1).length ≤ 1 := by
  induction script with
  | nil => simp [followScanLogs, streams]
  | cons r rest ih =>
    cases r with
    | err e => simp [followScanLogs, streams]
    | items items =>
      cases hsel : selectJob items N with
      | none =>
        rw [followScanLogs_retry _ _ _ _ _ hsel]
        simpa [streams] using ih
      | some j =>
        rw [followScanLogs_match _ _ _ _ _ _ hsel]
        simp [streams]

/-- C5: when the stream step of a run of `followScanLogs` returns an error,
the function returns the error `error streaming logs: <cause>`, and nothing
follows the stream step in the trace: no list call, no wait, no second stream;
the stream of that step is the only one of the run. -/
theorem followScanLogs_stream_error_final (cmdRun : String → List String → RunOutcome)
    (ns N : String) (script : List ListResult) (pre post : List Event)
    (name : String) (argv : List String) (out : RunOutcome) (cause : String)
    (h : (followScanLogs cmdRun ns N script).1 = pre ++ Event.run name argv out :: post)
    (herr : out.err = some cause) :
    (followScanLogs cmdRun ns N script).2
      = .returned (some ("error streaming logs: " ++ cause)) ∧
    post = [] ∧ listCalls post = [] ∧ waits post = [] ∧ streams post = [] ∧
    streams (followScanLogs cmdRun ns N script).1 = [(name, argv)] := by
  obtain ⟨hpost, _, hout, _, h2⟩ :=
    followScanLogs_run_inv cmdRun cmdRun ns N script pre post name argv out h
  subst hpost
  have hlen := streams_followScanLogs_length cmdRun ns N script
  rw [h2] at hlen ⊢
  rw [← hout, herr]
  refine ⟨rfl, rfl, rfl, rfl, rfl, ?_⟩
  simp only [streams_append, streams, List.length_append, List.length_cons,
    List.length_nil] at hlen ⊢
  have : streams pre = [] := List.eq_nil_of_length_eq_zero (by omega)
  rw [this]
  rfl

theorem followScanLogs_stream_error_final_witness :
    (followScanLogs (fun _ _ => .failure "exit status 1") "default" "nmap"
        [.items [⟨"scan-nmap-1a2b"⟩], .items []]).2
      = .returned (some ("error streaming logs: " ++ "exit status 1")) ∧
    ([] : List Event) = [] ∧ listCalls [] = [] ∧ waits [] = [] ∧ streams [] = [] ∧
    streams (followScanLogs (fun _ _ => .failure "exit status 1") "default" "nmap"
        [.items [⟨"scan-nmap-1a2b"⟩], .items []]).1
      = [("kubectl", ["logs", "job/scan-nmap-1a2b", "nmap", "--follow", "-n", "default"])] :=
  followScanLogs_stream_error_final (fun _ _ => .failure "exit status 1") "default" "nmap"
    [.items [⟨"scan-nmap-1a2b"⟩], .items []]
    [.list "default" (.items [⟨"scan-nmap-1a2b"⟩]),
     .print "📡 Streaming logs for job 'scan-nmap-1a2b' and container 'nmap'\n"] []
    "kubectl" ["logs", "job/scan-nmap-1a2b", "nmap", "--follow", "-n", "default"]
    (.failure "exit status 1") "exit status 1" (by decide) rfl

/-- C6: once a job is selected the subprocess run is
`kubectl logs job/<job name> <scanName> --follow -n <namespace>`: the stream is
on that job, with the scan name as container, with `--follow`, in the
namespace of the scan; every stream of every run has this form, for the job
selected from the listing just before it.  For scan `nmap`, target `x`, follow
enabled and the listings `[]` then `scan-nmap-1a2b`, the command waits once and
then streams container `nmap` of job `scan-nmap-1a2b`. -/
theorem followScanLogs_stream_target (cmdRun : String → List String → RunOutcome)
    (ns N : String) :
    (∀ items j rest, selectJob items N = some j →
      (followScanLogs cmdRun ns N (.items items :: rest)).1 =
        [.list ns (.items items),
         .print ("📡 Streaming logs for job '" ++ j.Name ++ "' and container '"
           ++ N ++ "'\n"),
         .run "kubectl" ["logs", "job/" ++ j.Name, N, "--follow", "-n", ns]
           (cmdRun "kubectl" ["logs", "job/" ++ j.Name, N, "--follow", "-n", ns])]) ∧
    (∀ script pre name argv out post,
      (followScanLogs cmdRun ns N script).1 = pre ++ Event.run name argv out :: post →
      name = "kubectl" ∧
      ∃ items j pre2, selectJob items N = some j ∧
        pre = pre2 ++ [.list ns (.items items),
          .print ("📡 Streaming logs for job '" ++ j.Name ++ "' and container '"
            ++ N ++ "'\n")] ∧
        argv = ["logs", "job/" ++ j.Name, N, "--follow", "-n", ns]) ∧
    RunE followWorld ["nmap", "x"] =
      ([.print "🎬 Initializing Kubernetes client\n",
        .getClient (.ok "default"),
        .print "🆕 Creating a new scan with name 'nmap' and target 'x'\n",
        .print "🔁 Launching the scan\n",
        .create
          { TypeMeta := { Kind := "Scan", APIVersion := "execution.securecodebox.io/v1" }
            ObjectMeta := { Name := "nmap", Namespace := "default" }
            Spec := { ScanType := "nmap", Parameters := ["x"] } } none,
        .print "🚀 Successfully created a new Scan 'nmap'\n",
        .print "📡 Following the scan logs\n",
        .list "default" (.items []),
        .print "No jobs found, retrying...\n",
        .sleep 2000000000,
        .list "default" (.items [⟨"scan-nmap-1a2b"⟩]),
        .print "📡 Streaming logs for job 'scan-nmap-1a2b' and container 'nmap'\n",
        .run "kubectl" ["logs", "job/scan-nmap-1a2b", "nmap", "--follow", "-n", "default"]
          .success,
        .print "Scanner Ready"],
       .returned none) := by
  refine ⟨?_, ?_, by decide⟩
  · intro items j rest hsel
    rw [followScanLogs_match _ _ _ _ _ _ hsel]
  · intro script pre name argv out post h
    obtain ⟨_, hname, _, hex, _⟩ :=
      followScanLogs_run_inv cmdRun cmdRun ns N script pre post name argv out h
    exact ⟨hname, hex⟩

/-- C8 (as stated, refuted): a run in which the context is cancelled during
the stream step and a run in which the stream step fails by itself with the
same cause return the same result, the error `error streaming logs: <cause>`,
from `followScanLogs` and from the command. -/
theorem followScanLogs_cancel_not_distinct :
    (followScanLogs (fun _ _ => .cancelled "signal: killed") "default" "nmap"
        [.items [⟨"scan-nmap-1a2b"⟩]]).1 =
      [.list "default" (.items [⟨"scan-nmap-1a2b"⟩]),
       .print "📡 Streaming logs for job 'scan-nmap-1a2b' and container 'nmap'\n",
       .run "kubectl" ["logs", "job/scan-nmap-1a2b", "nmap", "--follow", "-n", "default"]
         (.cancelled "signal: killed")] ∧
    (followScanLogs (fun _ _ => .cancelled "signal: killed") "default" "nmap"
        [.items [⟨"scan-nmap-1a2b"⟩]]).2 =
      (followScanLogs (fun _ _ => .failure "signal: killed") "default" "nmap"
        [.items [⟨"scan-nmap-1a2b"⟩]]).2 ∧
    (followScanLogs (fun _ _ => .cancelled "signal: killed") "default" "nmap"
        [.items [⟨"scan-nmap-1a2b"⟩]]).2 =
      .returned (some "error streaming logs: signal: killed") ∧
    (RunE { followWorld with cmdRun := fun _ _ => .cancelled "signal: killed" }
        ["nmap", "x"]).2 =
      (RunE { followWorld with cmdRun := fun _ _ => .failure "signal: killed" }
        ["nmap", "x"]).2 ∧
    (RunE { followWorld with cmdRun := fun _ _ => .cancelled "signal: killed" }
        ["nmap", "x"]).2 =
      .returned (some "Error following scan logs: error streaming logs: signal: killed") := by
  refine ⟨by decide, by decide, by decide, by decide, by decide⟩

/-- C8 (amended): when the context is cancelled during the stream step,
`followScanLogs` returns the error `error streaming logs: <cause>` with the
cause text of `cmd.Run`, nothing follows the stream step, and the result is the
one returned when the stream step fails by itself with the same cause text:
there is no separate outcome for cancellation. -/
theorem followScanLogs_cancelled_as_stream_error
    (cmdRun cmdRun2 : String → List String → RunOutcome)
    (ns N : String) (script : List ListResult) (pre post : List Event)
    (name : String) (argv : List String) (cause : String)
    (h : (followScanLogs cmdRun ns N script).1
      = pre ++ Event.run name argv (.cancelled cause) :: post)
    (h2 : cmdRun2 name argv = .failure cause) :
    (followScanLogs cmdRun ns N script).2
      = .returned (some ("error streaming logs: " ++ cause)) ∧
    (followScanLogs cmdRun2 ns N script).2 = (followScanLogs cmdRun ns N script).2 ∧
    (followScanLogs cmdRun2 ns N script).1 = pre ++ [.run name argv (.failure cause)] ∧
    post = [] := by
  obtain ⟨hpost, _, hout, _, hself⟩ :=
    followScanLogs_run_inv cmdRun cmdRun ns N script pre post name argv _ h
  obtain ⟨_, _, _, _, hother⟩ :=
    followScanLogs_run_inv cmdRun cmdRun2 ns N script pre post name argv _ h
  rw [hself, hother, ← hout, h2]
  exact ⟨rfl, rfl, rfl, hpost⟩

theorem followScanLogs_cancelled_as_stream_error_witness :
    (followScanLogs (fun _ _ => .cancelled "signal: killed") "default" "nmap"
        [.items [], .items [⟨"scan-nmap-1a2b"⟩]]).2
      = .returned (some ("error streaming logs: " ++ "signal: killed")) ∧
    (followScanLogs (fun _ _ => .failure "signal: killed") "default" "nmap"
        [.items [], .items [⟨"scan-nmap-1a2b"⟩]]).2
      = (followScanLogs (fun _ _ => .cancelled "signal: killed") "default" "nmap"
        [.items [], .items [⟨"scan-nmap-1a2b"⟩]]).2 :=
  have h := followScanLogs_cancelled_as_stream_error
    (fun _ _ => .cancelled "signal: killed") (fun _ _ => .failure "signal: killed")
    "default" "nmap" [.items [], .items [⟨"scan-nmap-1a2b"⟩]]
    [.list "default" (.items []), .print "No jobs found, retrying...\n",
     .sleep 2000000000, .list "default" (.items [⟨"scan-nmap-1a2b"⟩]),
     .print "📡 Streaming logs for job 'scan-nmap-1a2b' and container 'nmap'\n"] []
    "kubectl" ["logs", "job/scan-nmap-1a2b", "nmap", "--follow", "-n", "default"]
    "signal: killed" (by decide) rfl
  ⟨h.1, h.2.1⟩

/-! ## The command -/

/-- C1: for an argument list of at least two elements and a namespace given
by the client provider, the command makes exactly one create call; the resource
created has kind `Scan`, apiVersion `execution.securecodebox.io/v1`, the first
argument as name and as scan type, the namespace of the provider, and the
one-element parameter list holding the second argument.  Arguments after the
second change nothing. -/
theorem RunE_creates_one_scan (w : World) (args : List String) (ns : String)
    (h2 : 2 ≤ args.length) (hc : w.getClient = .ok ns) :
    createCalls (RunE w args).1 =
      [{ TypeMeta := { Kind := "Scan", APIVersion := "execution.securecodebox.io/v1" }
         ObjectMeta := { Name := args.get ⟨0, by omega⟩, Namespace := ns }
         Spec := { ScanType := args.get ⟨0, by omega⟩,
                   Parameters := [args.get ⟨1, by omega⟩] } }] ∧
    RunE w args = RunE w [args.get ⟨0, by omega⟩, args.get ⟨1, by omega⟩] := by
  match args, h2 with
  | name :: target :: extra, _ =>
    refine ⟨?_, rfl⟩
    simp only [RunE, hc, List.get_eq_getElem, List.getElem_cons_zero, List.getElem_cons_succ]
    split
    · simp [createCalls]
    · split
      · simp [createCalls]
      · split
        · split <;> simp [createCalls, createCalls_followScanLogs]
        · simp [createCalls]

theorem RunE_creates_one_scan_witness :
    2 ≤ ["nmap", "scanme.nmap.org", "extra"].length ∧
    createCalls (RunE followWorld ["nmap", "scanme.nmap.org", "extra"]).1 =
      [{ TypeMeta := { Kind := "Scan", APIVersion := "execution.securecodebox.io/v1" }
         ObjectMeta := { Name := "nmap", Namespace := "default" }
         Spec := { ScanType := "nmap", Parameters := ["scanme.nmap.org"] } }] :=
  ⟨by decide,
   (RunE_creates_one_scan followWorld ["nmap", "scanme.nmap.org", "extra"] "default"
      (by decide) rfl).1⟩

/-- C7: with the follow flag disabled and a create call that succeeds, the
command makes exactly one create call, no list call, no wait, opens no stream
and returns nil.  The case of scan `nmap` and target `scanme.nmap.org` is the
witness below. -/
theorem RunE_follow_disabled (w : World) (name target ns : String)
    (hc : w.getClient = .ok ns)
    (hcreate : w.create
      { TypeMeta := { Kind := "Scan", APIVersion := "execution.securecodebox.io/v1" }
        ObjectMeta := { Name := name, Namespace := ns }
        Spec := { ScanType := name, Parameters := [target] } } = none)
    (hf : w.follow = .ok false) :
    RunE w [name, target] =
      ([.print "🎬 Initializing Kubernetes client\n",
        .getClient (.ok ns),
        .print ("🆕 Creating a new scan with name '" ++ name ++ "' and target '"
          ++ target ++ "'\n"),
        .print "🔁 Launching the scan\n",
        .create
          { TypeMeta := { Kind := "Scan", APIVersion := "execution.securecodebox.io/v1" }
            ObjectMeta := { Name := name, Namespace := ns }
            Spec := { ScanType := name, Parameters := [target] } } none,
        .print ("🚀 Successfully created a new Scan '" ++ name ++ "'\n"),
        .print "Scanner Ready"],
       .returned none) ∧
    (createCalls (RunE w [name, target]).1).length = 1 ∧
    listCalls (RunE w [name, target]).1 = [] ∧
    waits (RunE w [name, target]).1 = [] ∧
    streams (RunE w [name, target]).1 = [] := by
  have h : RunE w [name, target] =
      ([.print "🎬 Initializing Kubernetes client\n",
        .getClient (.ok ns),
        .print ("🆕 Creating a new scan with name '" ++ name ++ "' and target '"
          ++ target ++ "'\n"),
        .print "🔁 Launching the scan\n",
        .create
          { TypeMeta := { Kind := "Scan", APIVersion := "execution.securecodebox.io/v1" }
            ObjectMeta := { Name := name, Namespace := ns }
            Spec := { ScanType := name, Parameters := [target] } } none,
        .print ("🚀 Successfully created a new Scan '" ++ name ++ "'\n"),
        .print "Scanner Ready"],
       .returned none) := by
    simp [RunE, hc, hcreate, hf]
  rw [h]
  exact ⟨rfl, rfl, rfl, rfl, rfl⟩

theorem RunE_follow_disabled_witness :
    RunE quietWorld ["nmap", "scanme.nmap.org"] =
      ([.print "🎬 Initializing Kubernetes client\n",
        .getClient (.ok "default"),
        .print ("🆕 Creating a new scan with name '" ++ "nmap" ++ "' and target '"
          ++ "scanme.nmap.org" ++ "'\n"),
        .print "🔁 Launching the scan\n",
        .create
          { TypeMeta := { Kind := "Scan", APIVersion := "execution.securecodebox.io/v1" }
            ObjectMeta := { Name := "nmap", Namespace := "default" }
            Spec := { ScanType := "nmap", Parameters := ["scanme.nmap.org"] } } none,
        .print ("🚀 Successfully created a new Scan '" ++ "nmap" ++ "'\n"),
        .print "Scanner Ready"],
       .returned none) ∧
    (createCalls (RunE quietWorld ["nmap", "scanme.nmap.org"]).1).length = 1 ∧
    listCalls (RunE quietWorld ["nmap", "scanme.nmap.org"]).1 = [] ∧
    waits (RunE quietWorld ["nmap", "scanme.nmap.org"]).1 = [] ∧
    streams (RunE quietWorld ["nmap", "scanme.nmap.org"]).1 = [] :=
  RunE_follow_disabled quietWorld "nmap" "scanme.nmap.org" "default" rfl rfl rfl

/-! ## Order of the calls -/

theorem listCalls_ne_nil_of_mem (t : List Event) (ns : String) (r : ListResult)
    (h : Event.list ns r ∈ t) : listCalls t ≠ [] := by
  obtain ⟨a, b, rfl⟩ := List.append_of_mem h
  simp [listCalls]

theorem streams_ne_nil_of_mem (t : List Event) (name : String) (argv : List String)
    (out : RunOutcome) (h : Event.run name argv out ∈ t) : streams t ≠ [] := by
  obtain ⟨a, b, rfl⟩ := List.append_of_mem h
  simp [streams]

/-- The shape of a run of the command: either it makes no list call and opens
no stream, or the create call succeeded, follow is enabled, and the trace is
the seven events up to the notice of following, then the trace of
`followScanLogs`, then at most the final notice. -/
theorem RunE_shape (w : World) (args : List String) :
    (listCalls (RunE w args).1 = [] ∧ streams (RunE w args).1 = []) ∨
    ∃ name target extra ns tail,
      args = name :: target :: extra ∧
      (RunE w args).1 =
        [.print "🎬 Initializing Kubernetes client\n",
         .getClient (.ok ns),
         .print ("🆕 Creating a new scan with name '" ++ name ++ "' and target '"
           ++ target ++ "'\n"),
         .print "🔁 Launching the scan\n",
         .create
           { TypeMeta := { Kind := "Scan", APIVersion := "execution.securecodebox.io/v1" }
             ObjectMeta := { Name := name, Namespace := ns }
             Spec := { ScanType := name, Parameters := [target] } } none,
         .print ("🚀 Successfully created a new Scan '" ++ name ++ "'\n"),
         .print "📡 Following the scan logs\n"] ++
        ((followScanLogs w.cmdRun ns name w.lists).1 ++ tail) ∧
      (tail = [] ∨ tail = [.print "Scanner Ready"]) := by
  match args with
  | [] => exact Or.inl ⟨rfl, rfl⟩
  | [_] => exact Or.inl ⟨rfl, rfl⟩
  | name :: target :: extra =>
    cases hc : w.getClient with
    | err e =>
      left
      simp [RunE, hc, listCalls, streams]
    | ok ns =>
      cases hcr : w.create
          { TypeMeta := { Kind := "Scan", APIVersion := "execution.securecodebox.io/v1" }
            ObjectMeta := { Name := name, Namespace := ns }
            Spec := { ScanType := name, Parameters := [target] } } with
      | some e =>
        left
        simp [RunE, hc, hcr, listCalls, streams]
      | none =>
        cases hf : w.follow with
        | err e =>
          left
          simp [RunE, hc, hcr, hf, listCalls, streams]
        | ok b =>
          cases b with
          | false =>
            left
            simp [RunE, hc, hcr, hf, listCalls, streams]
          | true =>
            right
            cases ho : (followScanLogs w.cmdRun ns name w.lists).2 with
            | pending =>
              exact ⟨name, target, extra, ns, [], rfl, by simp [RunE, hc, hcr, hf, ho],
                Or.inl rfl⟩
            | returned err =>
              cases err with
              | some e =>
                exact ⟨name, target, extra, ns, [], rfl, by simp [RunE, hc, hcr, hf, ho],
                  Or.inl rfl⟩
              | none =>
                exact ⟨name, target, extra, ns, [.print "Scanner Ready"], rfl,
                  by simp [RunE, hc, hcr, hf, ho], Or.inr rfl⟩

/-- C9: in every run of the command, a list call comes after a create call
that returned nil, and a stream comes after a list call whose listing holds a
job with the prefix `scan-<scanName>`.  When the create call fails the command
returns `Failed to create Scan: <cause>` and makes no list call, no wait and
opens no stream, also with follow enabled. -/
theorem RunE_ordering (w : World) (args : List String) :
    (∀ pre ns r post, (RunE w args).1 = pre ++ Event.list ns r :: post →
      ∃ scan, Event.create scan none ∈ pre) ∧
    (∀ pre name argv out post, (RunE w args).1 = pre ++ Event.run name argv out :: post →
      ∃ scanName ns items, args.head? = some scanName ∧
        Event.list ns (.items items) ∈ pre ∧
        ∃ x ∈ items, HasPrefix x.Name ("scan-" ++ scanName) = true) ∧
    (∀ name target extra ns e, args = name :: target :: extra →
      w.getClient = .ok ns →
      w.create
        { TypeMeta := { Kind := "Scan", APIVersion := "execution.securecodebox.io/v1" }
          ObjectMeta := { Name := name, Namespace := ns }
          Spec := { ScanType := name, Parameters := [target] } } = some e →
      (RunE w args).2 = .returned (some ("Failed to create Scan: " ++ e)) ∧
      listCalls (RunE w args).1 = [] ∧ waits (RunE w args).1 = [] ∧
      streams (RunE w args).1 = []) ∧
    (RunE rejectWorld ["nmap", "x"]).2 =
      .returned (some
        "Failed to create Scan: scans.execution.securecodebox.io \"nmap\" already exists") ∧
    listCalls (RunE rejectWorld ["nmap", "x"]).1 = [] ∧
    streams (RunE rejectWorld ["nmap", "x"]).1 = [] := by
  refine ⟨?_, ?_, ?_, by decide, by decide, by decide⟩
  · intro pre ns r post h
    rcases RunE_shape w args with ⟨hl, _⟩ | ⟨name, target, extra, ns0, tail, _, htr, _⟩
    · exact absurd hl (listCalls_ne_nil_of_mem _ ns r (by rw [h]; simp))
    · rw [htr] at h
      obtain ⟨pre2, hpre, _⟩ := split_left h (by simp)
      exact ⟨{ TypeMeta := { Kind := "Scan", APIVersion := "execution.securecodebox.io/v1" }
               ObjectMeta := { Name := name, Namespace := ns0 }
               Spec := { ScanType := name, Parameters := [target] } },
        by rw [hpre]; simp⟩
  · intro pre name argv out post h
    rcases RunE_shape w args with ⟨_, hs⟩ | ⟨name0, target, extra, ns0, tail, hargs, htr, htail⟩
    · exact absurd hs (streams_ne_nil_of_mem _ name argv out (by rw [h]; simp))
    · rw [htr] at h
      obtain ⟨pre2, hpre, h2⟩ := split_left h (by simp)
      obtain ⟨post2, h3, _⟩ := split_right h2 (by rcases htail with rfl | rfl <;> simp)
      obtain ⟨_, _, _, ⟨items, j, pre3, hsel, hpre2, _⟩, _⟩ :=
        followScanLogs_run_inv w.cmdRun w.cmdRun ns0 name0 w.lists pre2 post2 name argv out h3
      obtain ⟨before, after, hitems, hp, _⟩ := (selectJob_eq_some_iff items name0 j).1 hsel
      refine ⟨name0, ns0, items, by rw [hargs]; rfl, ?_, j, by rw [hitems]; simp, hp⟩
      rw [hpre, hpre2]
      simp
  · intro name target extra ns e hargs hc hcr
    subst hargs
    simp [RunE, hc, hcr, listCalls, waits, streams]

end Scbctl
